import Mathlib

/-
Verification of the canvas-notes application core: the note data model and
CRUD layer (src/src/hooks/useNotes.ts and the useNotes variants embedded in
src/src/components/UserMenu.tsx), the viewport hook (src/unnamed/part_002,
useCanvas), the note manipulation component (src/unnamed/part_001,
StickyNote), the search filter (src/src/components/Canvas.tsx) and the
auto-save debounce of src/src/components/NoteEditor.tsx.

Numbers (JS number) are modelled as rationals, timestamps (Date.now(),
setTimeout delays) as naturals, and JS strings as Lean strings with the
needed builtins (toLowerCase, includes, the truthiness test of trim)
modelled over the underlying character lists so that they evaluate in the
kernel.
-/

/-! ## JS string builtins -/

/-- Model of JS String.prototype.toLowerCase, character by character. -/
def jsToLower (s : String) : String := String.mk (s.data.map Char.toLower)

/-- Helper for jsIncludes: does the second list start the first one. -/
def startsWithChars : List Char → List Char → Bool
  | _, [] => true
  | [], _ :: _ => false
  | a :: as, b :: bs => a == b && startsWithChars as bs

/-- Helper for jsIncludes: does sub occur contiguously inside s. -/
def containsChars (s : List Char) (sub : List Char) : Bool :=
  match s with
  | [] => sub.isEmpty
  | c :: tail => startsWithChars (c :: tail) sub || containsChars tail sub

/-- Model of JS String.prototype.includes. -/
def jsIncludes (s sub : String) : Bool := containsChars s.data sub.data

/-! ## Data model (src/unnamed/part_003, types/note.ts) -/

/-- NoteColor from types/note.ts: the fixed six-color palette. -/
inductive NoteColor
  | yellow
  | pink
  | blue
  | green
  | lavender
  | coral
deriving DecidableEq, Repr

/-- Note from types/note.ts. -/
structure Note where
  id : String
  title : String
  content : String
  x : ℚ
  y : ℚ
  width : ℚ
  height : ℚ
  color : NoteColor
  createdAt : Nat
  updatedAt : Nat
deriving DecidableEq, Repr

/-- CanvasState from types/note.ts. -/
structure CanvasState where
  offsetX : ℚ
  offsetY : ℚ
  scale : ℚ
deriving DecidableEq, Repr

/-- Partial update record, the TS type Partial of Note without id and
createdAt; a field equal to none models an absent key. -/
structure NoteUpdates where
  title : Option String := none
  content : Option String := none
  x : Option ℚ := none
  y : Option ℚ := none
  width : Option ℚ := none
  height : Option ℚ := none
  color : Option NoteColor := none
  updatedAt : Option Nat := none
deriving DecidableEq, Repr

/-- Spread merge from updateNote in UserMenu.tsx lines 147-151:
the object literal spreads note, then updates, then sets updatedAt to
Date.now(), so the now argument always wins on updatedAt. -/
def applyUpdates (note : Note) (u : NoteUpdates) (now : Nat) : Note :=
  { id := note.id
    title := u.title.getD note.title
    content := u.content.getD note.content
    x := u.x.getD note.x
    y := u.y.getD note.y
    width := u.width.getD note.width
    height := u.height.getD note.height
    color := u.color.getD note.color
    createdAt := note.createdAt
    updatedAt := now }

/-! ## SyncEngine: the useNotes CRUD layer (UserMenu.tsx lines 145-190) -/

/-- One PATCH persistence request as issued by updateNote: the note id in
the URL and the updates object as the JSON body. -/
structure PatchRequest where
  id : String
  updates : NoteUpdates
deriving DecidableEq, Repr

/-- Optimistic local merge of updateNote (UserMenu.tsx lines 147-151):
map over the collection, merging into the matching note only. -/
def updateNoteLocal (id : String) (updates : NoteUpdates) (now : Nat)
    (notes : List Note) : List Note :=
  notes.map fun note => if note.id == id then applyUpdates note updates now else note

/-- updateNote from UserMenu.tsx lines 145-162: applies the optimistic
merge, issues exactly one PATCH request, and on failure only logs (the
catch block of line 159 does not touch the collection). Returns the
resulting collection, the requests issued, and the log lines. -/
def updateNote (id : String) (updates : NoteUpdates) (now : Nat) (fail : Bool)
    (notes : List Note) : List Note × List PatchRequest × List String :=
  let optimistic := updateNoteLocal id updates now notes
  let requests := [PatchRequest.mk id updates]
  let logs := if fail then ["Error updating note:"] else []
  (optimistic, requests, logs)

/-- Runs a sequence of updateNote calls, each tagged with its Date.now()
timestamp, threading the collection and concatenating the issued
requests. The source has no per-note debounce in updateNote, so every
call issues its own request. -/
def runUpdateCalls (fail : Bool) :
    List (Nat × String × NoteUpdates) → List Note → List Note × List PatchRequest
  | [], notes => (notes, [])
  | (now, id, u) :: rest, notes =>
    let step := updateNote id u now fail notes
    let tail := runUpdateCalls fail rest step.1
    (tail.1, step.2.1 ++ tail.2)

/-- deleteNote from UserMenu.tsx lines 164-182: captures the note via
find, removes it via filter, and on persistence failure appends the
captured note back at the end of the collection. -/
def deleteNote (id : String) (fail : Bool) (notes : List Note) : List Note :=
  let noteToDelete := notes.find? fun n => n.id == id
  let afterRemove := notes.filter fun n => n.id != id
  if fail then
    match noteToDelete with
    | some n => afterRemove ++ [n]
    | none => afterRemove
  else afterRemove

/-- bringToFront from useNotes.ts lines 103-109 (identical in
UserMenu.tsx lines 184-190): no-op when the id is absent, otherwise
filter the note out and append it. -/
def bringToFront (id : String) (prev : List Note) : List Note :=
  match prev.find? (fun n => n.id == id) with
  | none => prev
  | some note => prev.filter (fun n => n.id != id) ++ [note]

/-! ## Search filter (Canvas.tsx lines 27-35) -/

/-- filteredNotes from Canvas.tsx lines 27-35. The guard models the JS
truthiness test on searchQuery.trim(): the trimmed string is empty, and
hence falsy, exactly when every character is whitespace. The untrimmed
query, lowercased, is then matched against lowercased title and
content. -/
def filteredNotes (notes : List Note) (searchQuery : String) : List Note :=
  if searchQuery.data.all Char.isWhitespace then notes
  else
    let query := jsToLower searchQuery
    notes.filter fun note =>
      jsIncludes (jsToLower note.title) query || jsIncludes (jsToLower note.content) query

/-! ## ViewportController: useCanvas (src/unnamed/part_002) -/

def MIN_SCALE : ℚ := 1/4

def MAX_SCALE : ℚ := 2

/-- Initial canvas state of useCanvas lines 9-13. -/
def initialCanvasState : CanvasState :=
  { offsetX := 0, offsetY := 0, scale := 1 }

/-- handleWheel from useCanvas lines 35-57: multiplicative step 0.9 or
1.1 by wheel direction, clamp to the scale bounds, then recompute both
offsets so the zoom centers on the mouse position. The clamped scale is
used in the offset recomputation. -/
def handleWheel (s : CanvasState) (deltaYPos : Bool) (mouseX mouseY : ℚ) : CanvasState :=
  let delta : ℚ := if deltaYPos then 9/10 else 11/10
  let newScale := min MAX_SCALE (max MIN_SCALE (s.scale * delta))
  let scaleChange := newScale - s.scale
  let offsetX := s.offsetX - (mouseX - s.offsetX) * (scaleChange / s.scale)
  let offsetY := s.offsetY - (mouseY - s.offsetY) * (scaleChange / s.scale)
  { offsetX := offsetX, offsetY := offsetY, scale := newScale }

/-- handlePanMove from useCanvas lines 66-74: adds the raw screen
movement to the offsets, scale untouched. -/
def handlePanMove (s : CanvasState) (movementX movementY : ℚ) : CanvasState :=
  { offsetX := s.offsetX + movementX, offsetY := s.offsetY + movementY, scale := s.scale }

/-- resetView from useCanvas lines 80-86. -/
def resetView : CanvasState :=
  { offsetX := 0, offsetY := 0, scale := 1 }

/-- localStorage load effect of useCanvas lines 18-28: a stored record
that parses is installed verbatim, with no clamping or validation; a
missing or unparsable record keeps the current (default) state. -/
def loadStoredCanvas (stored : Option CanvasState) (s : CanvasState) : CanvasState :=
  match stored with
  | some parsed => parsed
  | none => s

/-- The viewport operations reachable from user input and startup. -/
inductive CanvasOp
  | wheel (deltaYPos : Bool) (mouseX mouseY : ℚ)
  | pan (movementX movementY : ℚ)
  | reset
  | load (stored : Option CanvasState)

/-- One step of the viewport state machine. -/
def applyCanvasOp (s : CanvasState) : CanvasOp → CanvasState
  | CanvasOp.wheel d mx my => handleWheel s d mx my
  | CanvasOp.pan dx dy => handlePanMove s dx dy
  | CanvasOp.reset => resetView
  | CanvasOp.load stored => loadStoredCanvas stored s

/-- Runs a sequence of viewport operations. -/
def runCanvasOps (s : CanvasState) : List CanvasOp → CanvasState
  | [] => s
  | op :: rest => runCanvasOps (applyCanvasOp s op) rest

/-- Every load operation in a sequence carries a record whose scale is
within the clamp bounds; other operations are unrestricted. -/
def opLoadInRange : CanvasOp → Prop
  | CanvasOp.load (some parsed) => MIN_SCALE ≤ parsed.scale ∧ parsed.scale ≤ MAX_SCALE
  | _ => True

/-- screenToWorld on the x coordinate, as computed in Canvas.tsx
handleDoubleClick line 45: (screen - offset) / scale. -/
def screenToWorldX (p : ℚ) (s : CanvasState) : ℚ := (p - s.offsetX) / s.scale

/-- screenToWorld on the y coordinate (Canvas.tsx line 46). -/
def screenToWorldY (p : ℚ) (s : CanvasState) : ℚ := (p - s.offsetY) / s.scale

/-! ## NoteManipulator: StickyNote resize (src/unnamed/part_001 lines 83-94) -/

/-- Resize branch of handleMouseMove in StickyNote: world delta is the
screen delta since interaction start divided by scale, and the new size
is clamped to the 180 by 120 minimum with Math.max. The start record
is resizeStartRef: starting pointer position and starting size. -/
def resizeMove (startX startY startWidth startHeight clientX clientY scale : ℚ) : ℚ × ℚ :=
  let deltaX := (clientX - startX) / scale
  let deltaY := (clientY - startY) / scale
  (max 180 (startWidth + deltaX), max 120 (startHeight + deltaY))

/-! ## NoteEditor auto-save debounce (NoteEditor.tsx lines 44-52) -/

/-- One editing action in the NoteEditor: the three state setters wired
to the title input, the content textarea and the color picker. -/
inductive EditorEvent
  | setTitle (value : String)
  | setContent (value : String)
  | setColor (value : NoteColor)
deriving DecidableEq, Repr

/-- The editor component state (title, content, selectedColor). -/
structure EditorState where
  title : String
  content : String
  selectedColor : NoteColor
deriving DecidableEq, Repr

/-- Applies one editor event to the editor state. -/
def applyEditorEvent (s : EditorState) : EditorEvent → EditorState
  | EditorEvent.setTitle v => { s with title := v }
  | EditorEvent.setContent v => { s with content := v }
  | EditorEvent.setColor v => { s with selectedColor := v }

/-- The payload of the auto-save effect (NoteEditor.tsx line 48): the
object literal with title, content and color passed to onUpdate. -/
def saveUpdates (s : EditorState) : NoteUpdates :=
  { title := some s.title, content := some s.content, color := some s.selectedColor }

/-- Debounce semantics of the auto-save effect: every edit event at time
t clears the previously scheduled timeout and schedules a save of the
then-current editor state at t + 300; the save fires only if no further
edit arrives before that deadline. Given the chronological list of edit
events, returns the list of editor states actually saved (each saved
state becomes one onUpdate call). -/
def debouncedSaves (s : EditorState) : List (Nat × EditorEvent) → List EditorState
  | [] => []
  | (t, e) :: rest =>
    match rest with
    | [] => [applyEditorEvent s e]
    | (tNext, _) :: _ =>
      if tNext < t + 300 then debouncedSaves (applyEditorEvent s e) rest
      else applyEditorEvent s e :: debouncedSaves (applyEditorEvent s e) rest

/-! ## PersistenceAdapter field-name translation (UserMenu.tsx lines 88-99
and 130-135) -/

/-- A note record on the wire, as a JSON object: each timestamp key may
be present (some) or absent (none), in either the snake_case spelling
the backend responses use or the camelCase spelling the frontend uses.
The eight remaining fields have the same key in both spellings. -/
structure WireNote where
  id : String
  title : String
  content : String
  x : ℚ
  y : ℚ
  width : ℚ
  height : ℚ
  color : NoteColor
  snakeCreatedAt : Option Nat
  snakeUpdatedAt : Option Nat
  camelCreatedAt : Option Nat
  camelUpdatedAt : Option Nat
deriving DecidableEq, Repr

/-- An in-memory note as a runtime JS object: the timestamp properties
may be undefined (none) when read from an object that lacks them. -/
structure MemNote where
  id : String
  title : String
  content : String
  x : ℚ
  y : ℚ
  width : ℚ
  height : ℚ
  color : NoteColor
  createdAt : Option Nat
  updatedAt : Option Nat
deriving DecidableEq, Repr

/-- Outbound translation: createNote (UserMenu.tsx lines 130-135) sends
JSON.stringify of the in-memory note itself, so the wire body carries
the camelCase keys createdAt and updatedAt and no snake_case keys. -/
def noteToWire (n : MemNote) : WireNote :=
  { id := n.id, title := n.title, content := n.content, x := n.x, y := n.y
    width := n.width, height := n.height, color := n.color
    snakeCreatedAt := none, snakeUpdatedAt := none
    camelCreatedAt := n.createdAt, camelUpdatedAt := n.updatedAt }

/-- Inbound translation: the fetchNotes mapping (UserMenu.tsx lines
88-99) reads createdAt from the snake_case key created_at and updatedAt
from updated_at, ignoring any camelCase timestamp keys. -/
def wireToNote (w : WireNote) : MemNote :=
  { id := w.id, title := w.title, content := w.content, x := w.x, y := w.y
    width := w.width, height := w.height, color := w.color
    createdAt := w.snakeCreatedAt, updatedAt := w.snakeUpdatedAt }

/-! ## Concrete sample data for witnesses and counterexamples -/

/-- Sample note with id a. -/
def noteA : Note :=
  { id := "a", title := "Alpha note", content := "first body", x := 10, y := 20
    width := 240, height := 180, color := NoteColor.yellow, createdAt := 1, updatedAt := 1 }

/-- Sample note with id b. -/
def noteB : Note :=
  { id := "b", title := "Beta note", content := "second body", x := 30, y := 40
    width := 220, height := 160, color := NoteColor.blue, createdAt := 2, updatedAt := 2 }

/-- Sample partial update setting only the title. -/
def updTitle (t : String) : NoteUpdates := { title := some t }

/-- Sample in-memory note with both timestamps present. -/
def memNoteA : MemNote :=
  { id := "m1", title := "t", content := "c", x := 1, y := 2, width := 240, height := 180
    color := NoteColor.yellow, createdAt := some 1111, updatedAt := some 2222 }

/-! ## Claim theorems -/

/-- Claim C1, counterexample: three rapid calls to the update operation
for the same note (here at Date.now() stamps 0, 100 and 200, all inside
one 300ms quiet interval) issue three PATCH requests, not exactly one,
because updateNote in UserMenu.tsx performs no per-note debouncing. -/
theorem updateNote_three_calls_three_requests :
    (runUpdateCalls false
        [(0, "n1", updTitle "a"), (100, "n1", updTitle "ab"), (200, "n1", updTitle "abc")]
        []).2.length = 3 ∧
    (runUpdateCalls false
        [(0, "n1", updTitle "a"), (100, "n1", updTitle "ab"), (200, "n1", updTitle "abc")]
        []).2.length ≠ 1 := by
  constructor
  · rfl
  · intro h
    simp [runUpdateCalls, updateNote] at h

/-- Claim C1, amended: the 300ms debounce lives in the NoteEditor
auto-save effect, not in updateNote. Three edit events on the same open
note whose successive gaps are below 300ms coalesce into exactly one
saved state, the state after the last edit; flushing that single save
through updateNote issues exactly one PATCH request carrying the last
edits field values (title, content, color). -/
theorem editor_debounce_three_edits_one_request
    (nid : String) (notes : List Note) (s : EditorState) (e1 e2 e3 : EditorEvent)
    (t1 t2 t3 tFire : Nat) (h12 : t2 < t1 + 300) (h23 : t3 < t2 + 300) :
    debouncedSaves s [(t1, e1), (t2, e2), (t3, e3)]
        = [applyEditorEvent (applyEditorEvent (applyEditorEvent s e1) e2) e3] ∧
    (runUpdateCalls false
        [(tFire, nid, saveUpdates (applyEditorEvent (applyEditorEvent (applyEditorEvent s e1) e2) e3))]
        notes).2
      = [PatchRequest.mk nid
          (saveUpdates (applyEditorEvent (applyEditorEvent (applyEditorEvent s e1) e2) e3))] := by
  constructor
  · simp only [debouncedSaves]
    rw [if_pos h12, if_pos h23]
  · rfl

/-- Witness for the amended C1 theorem at concrete edits 0, 100, 200ms. -/
theorem editor_debounce_three_edits_one_request_witness :
    debouncedSaves (EditorState.mk "" "" NoteColor.yellow)
        [(0, EditorEvent.setTitle "a"), (100, EditorEvent.setTitle "ab"),
         (200, EditorEvent.setTitle "abc")]
        = [applyEditorEvent (applyEditorEvent (applyEditorEvent
            (EditorState.mk "" "" NoteColor.yellow) (EditorEvent.setTitle "a"))
            (EditorEvent.setTitle "ab")) (EditorEvent.setTitle "abc")] ∧
    (runUpdateCalls false
        [(500, "n1", saveUpdates (applyEditorEvent (applyEditorEvent (applyEditorEvent
            (EditorState.mk "" "" NoteColor.yellow) (EditorEvent.setTitle "a"))
            (EditorEvent.setTitle "ab")) (EditorEvent.setTitle "abc")))]
        []).2
      = [PatchRequest.mk "n1"
          (saveUpdates (applyEditorEvent (applyEditorEvent (applyEditorEvent
            (EditorState.mk "" "" NoteColor.yellow) (EditorEvent.setTitle "a"))
            (EditorEvent.setTitle "ab")) (EditorEvent.setTitle "abc")))] :=
  editor_debounce_three_edits_one_request "n1" [] (EditorState.mk "" "" NoteColor.yellow)
    (EditorEvent.setTitle "a") (EditorEvent.setTitle "ab") (EditorEvent.setTitle "abc")
    0 100 200 500 (by decide) (by decide)

/-- Claim C2, counterexample: with notes a and b in that order, deleting
a and failing persistence yields the order b then a: the captured note
is appended at the end even though its prior position (the front) is
still available, so the note is not restored at its prior relative
position. -/
theorem deleteNote_rollback_appends_cex :
    deleteNote "a" true [noteA, noteB] = [noteB, noteA] ∧
    [noteB, noteA] ≠ [noteA, noteB] := by
  constructor
  · rfl
  · intro h
    have hid : noteB.id = noteA.id := congrArg (fun l => (l.headD noteB).id) h
    simp [noteA, noteB] at hid

/-- Claim C2, amended: when the deleted note is present and persistence
fails, the rollback reinserts the captured note with field values
identical to those it had immediately before deletion (it is the very
element that was in the collection), but always appends it at the end,
after the surviving notes in their original order. -/
theorem deleteNote_rollback_restores_fields_appended
    (id : String) (notes : List Note) (n : Note)
    (h : notes.find? (fun m => m.id == id) = some n) :
    deleteNote id true notes = notes.filter (fun m => m.id != id) ++ [n] ∧ n ∈ notes := by
  refine ⟨?_, List.mem_of_find?_eq_some h⟩
  simp [deleteNote, h]

/-- Witness for the amended C2 theorem: deleting note a from the two
note collection with failing persistence. -/
theorem deleteNote_rollback_restores_fields_appended_witness :
    deleteNote "a" true [noteA, noteB]
        = [noteA, noteB].filter (fun m => m.id != "a") ++ [noteA] ∧
    noteA ∈ [noteA, noteB] :=
  deleteNote_rollback_restores_fields_appended "a" [noteA, noteB] noteA rfl

/-- Claim C3, confirmed: an update whose persistence fails leaves the
collection exactly as the optimistic merge set it: the result with
fail true equals the result with fail false, and both equal the map
that merges the partial fields into the matching note; the failure
produces a log line only. -/
theorem updateNote_failure_no_rollback
    (id : String) (u : NoteUpdates) (now : Nat) (notes : List Note) :
    (updateNote id u now true notes).1 = (updateNote id u now false notes).1 ∧
    (updateNote id u now true notes).1
      = notes.map (fun note => if note.id == id then applyUpdates note u now else note) ∧
    (updateNote id u now true notes).2.2 = ["Error updating note:"] :=
  ⟨rfl, rfl, rfl⟩

/-- Claim C6, confirmed: for every resize start (x0, y0, w0, h0), screen
delta (dx, dy) and scale s, the resize move yields exactly width
max 180 (w0 + dx / s) and height max 120 (h0 + dy / s), and therefore
never a width below 180 or a height below 120, however negative the
deltas are. -/
theorem resize_clamps_min_dims (x0 y0 w0 h0 dx dy s : ℚ) :
    resizeMove x0 y0 w0 h0 (x0 + dx) (y0 + dy) s
        = (max 180 (w0 + dx / s), max 120 (h0 + dy / s)) ∧
    180 ≤ (resizeMove x0 y0 w0 h0 (x0 + dx) (y0 + dy) s).1 ∧
    120 ≤ (resizeMove x0 y0 w0 h0 (x0 + dx) (y0 + dy) s).2 := by
  refine ⟨?_, le_max_left _ _, le_max_left _ _⟩
  simp [resizeMove, add_sub_cancel_left]

/-- Claim C9, confirmed: updating an id that no note in the collection
carries leaves the collection exactly unchanged, whether or not the
persistence call fails; the operation is total, so no error is raised. -/
theorem updateNote_absent_id_noop
    (id : String) (u : NoteUpdates) (now : Nat) (fail : Bool) (notes : List Note)
    (h : ∀ n ∈ notes, n.id ≠ id) :
    (updateNote id u now fail notes).1 = notes := by
  simp only [updateNote, updateNoteLocal]
  induction notes with
  | nil => rfl
  | cons a rest ih =>
    have ha : (a.id == id) = false := by
      simpa using h a (List.mem_cons_self a rest)
    simp only [List.map_cons, ha, Bool.false_eq_true, if_false]
    rw [ih (fun n hn => h n (List.mem_cons_of_mem a hn))]

/-- Witness for C9: updating an absent id on the two note collection. -/
theorem updateNote_absent_id_noop_witness :
    (updateNote "zzz" (updTitle "ignored") 7 false [noteA, noteB]).1 = [noteA, noteB] :=
  updateNote_absent_id_noop "zzz" (updTitle "ignored") 7 false [noteA, noteB] (by decide)

/-- Helper: the wheel handler always clamps the resulting scale into the
MIN_SCALE to MAX_SCALE interval, whatever the input state. -/
theorem wheel_scale_bounds (s : CanvasState) (d : Bool) (mx my : ℚ) :
    MIN_SCALE ≤ (handleWheel s d mx my).scale ∧ (handleWheel s d mx my).scale ≤ MAX_SCALE := by
  dsimp only [handleWheel]
  constructor
  · exact le_min (by norm_num [MIN_SCALE, MAX_SCALE]) (le_max_left _ _)
  · exact min_le_left _ _

/-- Claim C4, counterexample: the startup load effect installs a parsed
record verbatim, so loading a persisted record with scale 7 yields a
state whose scale is 7, outside the claimed interval. -/
theorem canvas_load_escapes_scale_bounds :
    (runCanvasOps initialCanvasState [CanvasOp.load (some (CanvasState.mk 0 0 7))]).scale = 7 ∧
    ¬ (MIN_SCALE ≤ (runCanvasOps initialCanvasState
          [CanvasOp.load (some (CanvasState.mk 0 0 7))]).scale ∧
        (runCanvasOps initialCanvasState
          [CanvasOp.load (some (CanvasState.mk 0 0 7))]).scale ≤ MAX_SCALE) := by
  constructor
  · rfl
  · intro hcontra
    have h2 := hcontra.2
    rw [show (runCanvasOps initialCanvasState
        [CanvasOp.load (some (CanvasState.mk 0 0 7))]).scale = 7 from rfl] at h2
    norm_num [MAX_SCALE] at h2

/-- Claim C4, amended: starting from any state whose scale is within
[0.25, 2] (the initial state included), any sequence of zoom steps,
pans, resets and loads keeps the scale within [0.25, 2], provided every
load carries a record whose scale is itself within the bounds (which
holds for records this application persisted); the load path itself
performs no clamping. -/
theorem canvas_scale_invariant_clamped_loads (ops : List CanvasOp) :
    ∀ s : CanvasState, MIN_SCALE ≤ s.scale → s.scale ≤ MAX_SCALE →
      (∀ op ∈ ops, opLoadInRange op) →
      MIN_SCALE ≤ (runCanvasOps s ops).scale ∧ (runCanvasOps s ops).scale ≤ MAX_SCALE := by
  induction ops with
  | nil => exact fun s h1 h2 _ => ⟨h1, h2⟩
  | cons op rest ih =>
    intro s h1 h2 hops
    have hop : opLoadInRange op := hops op (List.mem_cons_self op rest)
    have hrest : ∀ o ∈ rest, opLoadInRange o := fun o ho => hops o (List.mem_cons_of_mem op ho)
    show MIN_SCALE ≤ (runCanvasOps (applyCanvasOp s op) rest).scale ∧
        (runCanvasOps (applyCanvasOp s op) rest).scale ≤ MAX_SCALE
    cases op with
    | wheel d mx my =>
      exact ih _ (wheel_scale_bounds s d mx my).1 (wheel_scale_bounds s d mx my).2 hrest
    | pan dx dy => exact ih _ h1 h2 hrest
    | reset =>
      exact ih _ (by norm_num [applyCanvasOp, resetView, MIN_SCALE])
        (by norm_num [applyCanvasOp, resetView, MAX_SCALE]) hrest
    | load stored =>
      cases stored with
      | none => exact ih _ h1 h2 hrest
      | some parsed => exact ih _ hop.1 hop.2 hrest

/-- Witness for the amended C4 theorem: a wheel zoom, a pan and a reset
from the initial state stay within the scale bounds. -/
theorem canvas_scale_invariant_clamped_loads_witness :
    MIN_SCALE ≤ (runCanvasOps initialCanvasState
        [CanvasOp.wheel false 400 300, CanvasOp.pan 5 6, CanvasOp.reset]).scale ∧
    (runCanvasOps initialCanvasState
        [CanvasOp.wheel false 400 300, CanvasOp.pan 5 6, CanvasOp.reset]).scale ≤ MAX_SCALE :=
  canvas_scale_invariant_clamped_loads
    [CanvasOp.wheel false 400 300, CanvasOp.pan 5 6, CanvasOp.reset]
    initialCanvasState
    (by norm_num [initialCanvasState, MIN_SCALE])
    (by norm_num [initialCanvasState, MAX_SCALE])
    (by intro op hop
        fin_cases hop <;> trivial)

/-- Helper: the pure offset recomputation algebra behind the wheel
zoom: dividing the adjusted pivot distance by the new scale returns the
original world coordinate. -/
theorem zoom_offset_algebra (off p a c : ℚ) (ha : a ≠ 0) (hc : c ≠ 0) :
    (p - (off - (p - off) * ((c - a) / a))) / c = (p - off) / a := by
  field_simp
  ring

/-- Claim C5, confirmed: for every viewport state with nonzero scale and
every wheel zoom step with the mouse at (mx, my), the world coordinate
under the mouse, computed as (screen - offset) / scale, is exactly
unchanged by the zoom; in the rational model the equality is exact, so
it holds a fortiori within floating-point tolerance. -/
theorem zoom_preserves_pivot_world_point (s : CanvasState) (d : Bool) (mx my : ℚ)
    (h : s.scale ≠ 0) :
    screenToWorldX mx (handleWheel s d mx my) = screenToWorldX mx s ∧
    screenToWorldY my (handleWheel s d mx my) = screenToWorldY my s := by
  have hmin : (0:ℚ) < MIN_SCALE := by norm_num [MIN_SCALE]
  have hc : (handleWheel s d mx my).scale ≠ 0 :=
    ne_of_gt (lt_of_lt_of_le hmin (wheel_scale_bounds s d mx my).1)
  have hox : (handleWheel s d mx my).offsetX
      = s.offsetX - (mx - s.offsetX) * (((handleWheel s d mx my).scale - s.scale) / s.scale) := rfl
  have hoy : (handleWheel s d mx my).offsetY
      = s.offsetY - (my - s.offsetY) * (((handleWheel s d mx my).scale - s.scale) / s.scale) := rfl
  constructor
  · show (mx - (handleWheel s d mx my).offsetX) / (handleWheel s d mx my).scale
        = (mx - s.offsetX) / s.scale
    rw [hox]
    exact zoom_offset_algebra s.offsetX mx s.scale _ h hc
  · show (my - (handleWheel s d mx my).offsetY) / (handleWheel s d mx my).scale
        = (my - s.offsetY) / s.scale
    rw [hoy]
    exact zoom_offset_algebra s.offsetY my s.scale _ h hc

/-- Witness for C5: zoom in at pivot (400, 300) from the default
viewport state. -/
theorem zoom_preserves_pivot_world_point_witness :
    screenToWorldX 400 (handleWheel initialCanvasState false 400 300)
        = screenToWorldX 400 initialCanvasState ∧
    screenToWorldY 300 (handleWheel initialCanvasState false 400 300)
        = screenToWorldY 300 initialCanvasState :=
  zoom_preserves_pivot_world_point initialCanvasState false 400 300 one_ne_zero

/-- Helper: find? over an append whose left part contains no match. -/
theorem find?_append_of_none {α : Type} {p : α → Bool} {l1 l2 : List α}
    (h : l1.find? p = none) : (l1 ++ l2).find? p = l2.find? p := by
  induction l1 with
  | nil => rfl
  | cons a t ih =>
    cases hpa : p a with
    | true => simp [List.find?_cons_of_pos _ hpa] at h
    | false =>
      rw [List.find?_cons_of_neg _ (by simp [hpa])] at h
      rw [List.cons_append, List.find?_cons_of_neg _ (by simp [hpa])]
      exact ih h

/-- Helper: filtering twice with the same predicate filters once. -/
theorem filter_self_idem {α : Type} (p : α → Bool) (l : List α) :
    (l.filter p).filter p = l.filter p := by
  induction l with
  | nil => rfl
  | cons a t ih =>
    cases hpa : p a with
    | true => simp [List.filter_cons, hpa, ih]
    | false => simp [List.filter_cons, hpa, ih]

/-- Claim C7, confirmed: bringToFront is a no-op when the id is absent;
when the id is present it moves that note to the end of the collection;
it preserves the relative order of all other notes (the sublist of
notes with a different id is unchanged); and applying it twice yields
the same order as applying it once. -/
theorem bringToFront_spec (id : String) (notes : List Note) :
    (notes.find? (fun n => n.id == id) = none → bringToFront id notes = notes) ∧
    (∀ n, notes.find? (fun n => n.id == id) = some n →
        bringToFront id notes = notes.filter (fun n => n.id != id) ++ [n]) ∧
    (bringToFront id notes).filter (fun n => n.id != id)
        = notes.filter (fun n => n.id != id) ∧
    bringToFront id (bringToFront id notes) = bringToFront id notes := by
  refine ⟨?_, ?_, ?_, ?_⟩
  · intro h
    simp [bringToFront, h]
  · intro n h
    simp [bringToFront, h]
  · cases hf : notes.find? (fun n => n.id == id) with
    | none => simp [bringToFront, hf]
    | some n =>
      have hpn := List.find?_some hf
      simp only [bringToFront, hf, List.filter_append]
      rw [filter_self_idem]
      have hn1 : [n].filter (fun m => m.id != id) = [] := by
        simp [List.filter_cons, bne, hpn]
      rw [hn1, List.append_nil]
  · cases hf : notes.find? (fun n => n.id == id) with
    | none =>
      have h1 : bringToFront id notes = notes := by simp [bringToFront, hf]
      rw [h1]
      exact h1
    | some n =>
      have hpn := List.find?_some hf
      have h1 : bringToFront id notes = notes.filter (fun m => m.id != id) ++ [n] := by
        simp [bringToFront, hf]
      have hnone : (notes.filter (fun m => m.id != id)).find? (fun m => m.id == id) = none := by
        rw [List.find?_eq_none]
        intro x hx
        have hxne := (List.mem_filter.mp hx).2
        intro hxeq
        simp only [bne, hxeq, Bool.not_true] at hxne
        exact absurd hxne (by simp)
      have hfind : ((notes.filter (fun m => m.id != id)) ++ [n]).find? (fun m => m.id == id)
          = some n := by
        rw [find?_append_of_none hnone]
        exact List.find?_cons_of_pos _ hpn
      rw [h1]
      have h2 : bringToFront id (notes.filter (fun m => m.id != id) ++ [n])
          = (notes.filter (fun m => m.id != id) ++ [n]).filter (fun m => m.id != id) ++ [n] := by
        simp [bringToFront, hfind]
      rw [h2, List.filter_append, filter_self_idem]
      have h3 : [n].filter (fun m => m.id != id) = [] := by
        simp [List.filter_cons, bne, hpn]
      rw [h3, List.append_nil]

/-- Witness for C7: an absent id is a no-op and a present id is moved to
the end on the two note collection. -/
theorem bringToFront_spec_witness :
    bringToFront "zz" [noteA, noteB] = [noteA, noteB] ∧
    bringToFront "a" [noteA, noteB] = [noteA, noteB].filter (fun n => n.id != "a") ++ [noteA] :=
  ⟨(bringToFront_spec "zz" [noteA, noteB]).1 rfl,
   (bringToFront_spec "a" [noteA, noteB]).2.1 noteA rfl⟩

/-- Claim C8, counterexample: serializing an in-memory note outbound and
reading it back through the inbound mapping is not the identity: the
outbound body carries camelCase timestamp keys while the inbound mapping
reads the snake_case ones, so the round trip of a note with createdAt
1111 returns a note whose createdAt is absent. -/
theorem wire_roundtrip_not_identity_cex :
    wireToNote (noteToWire memNoteA) ≠ memNoteA ∧
    (wireToNote (noteToWire memNoteA)).createdAt = none ∧
    memNoteA.createdAt = some 1111 := by
  refine ⟨?_, rfl, rfl⟩
  intro h
  have hc := congrArg MemNote.createdAt h
  simp [wireToNote, noteToWire, memNoteA] at hc

/-- Claim C8, amended: the round trip outbound then inbound is the
identity on id, title, content, x, y, width, height and color, but
drops both timestamps: the inbound mapping reads the snake_case keys
created_at and updated_at, which the outbound camelCase body does not
carry, so the translation is not symmetric on the timestamp fields. -/
theorem wire_roundtrip_fields (n : MemNote) :
    (wireToNote (noteToWire n)).id = n.id ∧
    (wireToNote (noteToWire n)).title = n.title ∧
    (wireToNote (noteToWire n)).content = n.content ∧
    (wireToNote (noteToWire n)).x = n.x ∧
    (wireToNote (noteToWire n)).y = n.y ∧
    (wireToNote (noteToWire n)).width = n.width ∧
    (wireToNote (noteToWire n)).height = n.height ∧
    (wireToNote (noteToWire n)).color = n.color ∧
    (wireToNote (noteToWire n)).createdAt = none ∧
    (wireToNote (noteToWire n)).updatedAt = none :=
  ⟨rfl, rfl, rfl, rfl, rfl, rfl, rfl, rfl, rfl, rfl⟩

/-- Claim C10, confirmed: when every character of the query is
whitespace (the empty query included) the filter returns the collection
itself, unmodified; otherwise a note is displayed exactly when its
lowercased title or lowercased content contains the lowercased query as
a substring. -/
theorem filteredNotes_spec (notes : List Note) (q : String) :
    (q.data.all Char.isWhitespace = true → filteredNotes notes q = notes) ∧
    (q.data.all Char.isWhitespace = false →
      ∀ n, n ∈ filteredNotes notes q ↔
        n ∈ notes ∧
          (jsIncludes (jsToLower n.title) (jsToLower q)
            || jsIncludes (jsToLower n.content) (jsToLower q)) = true) := by
  constructor
  · intro h
    simp [filteredNotes, h]
  · intro h n
    simp only [filteredNotes]
    rw [if_neg (by simp [h])]
    exact List.mem_filter

/-- Witness for C10: a whitespace query displays both sample notes, and
the query ALPHA matches the note titled Alpha note case-insensitively. -/
theorem filteredNotes_spec_witness :
    filteredNotes [noteA, noteB] "   " = [noteA, noteB] ∧
    (noteA ∈ filteredNotes [noteA, noteB] "ALPHA" ↔
      noteA ∈ [noteA, noteB] ∧
        (jsIncludes (jsToLower noteA.title) (jsToLower "ALPHA")
          || jsIncludes (jsToLower noteA.content) (jsToLower "ALPHA")) = true) :=
  ⟨(filteredNotes_spec [noteA, noteB] "   ").1 (by decide),
   (filteredNotes_spec [noteA, noteB] "ALPHA").2 (by decide) noteA⟩
